import Mathlib

/-!
Formal model of the git-sync daemon (github.com/bnema/git-sync).

The definitions below are a shallow embedding of the Go sources:

* internal/daemon git operations (SyncRepository, performSafetyChecks,
  gitPush, gitPull, gitFetch, withBranchSwitch, getRefSpecs);
* internal/config (RepoConfig, GlobalConfig, ConfigWatcher.validateConfig,
  the file-watcher reload callback, Daemon.reloadConfig and
  Daemon.reloadConfigFromSignal);
* internal/daemon/scheduler.go (Scheduler.Stop, SyncManager and its
  buffered-channel semaphore);
* the history manager (SyncHistoryEntry, CleanOldEntries,
  rewriteHistoryFile);
* cmd/init.go (validateConfigCombination, isValidDirection).

External effects (go-git network calls, the file system, the context) are
modelled by explicit inputs: a GitEnv record carries the result each
underlying go-git call would report, a RepoState record carries the
observable state of the working tree, and file contents are lists of
records.  Error values are strings mirroring the fmt.Errorf format strings
of the source.
-/

/-- Result reported by an underlying go-git network call (r.Push, w.Pull,
r.Fetch).  alreadyUpToDate models git.NoErrAlreadyUpToDate, emptyRemote
models transport.ErrEmptyRemoteRepository, failed is any other error. -/
inductive OpResult where
  | ok
  | alreadyUpToDate
  | emptyRemote
  | failed (msg : String)
deriving DecidableEq, Repr

/-- Observable actions a sync attempt performs on the repository:
a checkout of a branch, or an invocation of the underlying push, pull or
fetch network call. -/
inductive SyncAction where
  | checkout (branch : String)
  | push
  | pull
  | fetch
deriving DecidableEq, Repr

/-- internal/config RepoConfig (toml repository entry). -/
structure RepoConfig where
  path : String
  enabled : Bool
  direction : String
  interval : Int
  remote : String
  branchStrategy : String
  targetBranch : String
  safetyChecks : Bool
  forcePush : Bool
deriving DecidableEq, Repr

/-- Environment of one sync attempt: whether the context is cancelled and
the result each underlying go-git network call reports when invoked. -/
structure GitEnv where
  ctxDone : Bool
  pushResult : OpResult
  pullResult : OpResult
  fetchResult : OpResult
deriving DecidableEq, Repr

/-- Observable state of the repository working tree when the attempt runs.
openOk, worktreeOk, statusOk and headOk model whether git.PlainOpen,
r.Worktree, w.Status and r.Head succeed.  headBranch is the short name of
HEAD, clean is w.Status().IsClean(), localBranches are the refs/heads
names, remoteBranches the refs/remotes/(remote)/ names, and
switchBackFails is an oracle for whether the deferred checkout of the
original branch in withBranchSwitch fails. -/
structure RepoState where
  openOk : Bool
  worktreeOk : Bool
  statusOk : Bool
  headOk : Bool
  headBranch : String
  clean : Bool
  localBranches : List String
  remoteBranches : List String
  switchBackFails : Bool
deriving DecidableEq, Repr

deriving instance DecidableEq for Except

/-- Outcome of (part of) a sync attempt: the returned error value, the
repository state afterwards, and the actions performed in order. -/
structure ExecOutcome where
  result : Except String Unit
  state : RepoState
  actions : List SyncAction
deriving DecidableEq, Repr

/-- Error text of context.Canceled. -/
def msgCtxCanceled : String := "context canceled"

/-- fmt.Errorf text of the safety-check abort in performSafetyChecks. -/
def msgUncommittedSkip : String := "repository has uncommitted changes, skipping sync"

/-- fmt.Errorf text of the dirty-tree abort in withBranchSwitch. -/
def msgCannotSwitch : String := "cannot switch branches due to uncommitted changes"

/-- Error text of transport.ErrEmptyRemoteRepository. -/
def msgEmptyRemote : String := "remote repository is empty"

/-- Message text an OpResult contributes when wrapped by fmt.Errorf. -/
def OpResult.errText : OpResult → String
  | .ok => ""
  | .alreadyUpToDate => "already up-to-date"
  | .emptyRemote => msgEmptyRemote
  | .failed m => m

/-- Whether the character list pat occurs at the start of s. -/
def charsStartWith : List Char → List Char → Bool
  | [], _ => true
  | _ :: _, [] => false
  | p :: ps, c :: cs => p == c && charsStartWith ps cs

/-- Whether the character list pat occurs anywhere inside s. -/
def charsContain (pat s : List Char) : Bool :=
  match s with
  | [] => pat.isEmpty
  | _ :: rest => charsStartWith pat s || charsContain pat rest

/-- Whether an error message indicates uncommitted changes. -/
def mentionsUncommitted (msg : String) : Bool :=
  charsContain ("uncommitted changes").toList msg.toList

/-- GitOperations.performSafetyChecks: context check, then w.Status; a
dirty tree is an error exactly when ForcePush is unset. -/
def performSafetyChecks (env : GitEnv) (st : RepoState) (repo : RepoConfig) :
    Except String Unit :=
  if env.ctxDone then .error msgCtxCanceled
  else if !st.statusOk then .error ("failed to get worktree status")
  else if !st.clean && !repo.forcePush then .error msgUncommittedSkip
  else .ok ()

/-- GitOperations.getRefSpecs: the ref spec strings for the non-specific
branch strategies; an unknown strategy is an error. -/
def getRefSpecs (st : RepoState) (strategy remoteName : String) (isPull : Bool) :
    Except String (List String) :=
  if strategy = "current" then
    if !st.headOk then .error ("failed to get current branch")
    else
      let branch := st.headBranch
      if isPull then
        .ok (("refs/heads/" ++ branch ++ ":refs/remotes/" ++ remoteName ++ "/" ++ branch) :: [])
      else
        .ok (("refs/heads/" ++ branch ++ ":refs/heads/" ++ branch) :: [])
  else if strategy = "main" then
    if isPull then
      .ok (("refs/heads/main:refs/remotes/" ++ remoteName ++ "/main") :: [])
    else
      .ok (("refs/heads/main:refs/heads/main") :: [])
  else if strategy = "all" then
    .ok (("refs/heads/*:refs/heads/*") :: [])
  else .error ("invalid branch strategy: " ++ strategy)

/-- The closure passed by gitPushSpecificBranch to withBranchSwitch:
context check, then r.Push of the target branch; only
git.NoErrAlreadyUpToDate is converted to success. -/
def pushSpecificClosure (env : GitEnv) : Except String Unit × List SyncAction :=
  if env.ctxDone then (.error msgCtxCanceled, [])
  else
    match env.pushResult with
    | .ok => (.ok (), [.push])
    | .alreadyUpToDate => (.ok (), [.push])
    | r => (.error ("git push failed: " ++ r.errText), [.push])

/-- The closure passed by gitPullSpecificBranch to withBranchSwitch:
context check, then w.Pull; only git.NoErrAlreadyUpToDate is converted to
success (transport.ErrEmptyRemoteRepository is not). -/
def pullSpecificClosure (env : GitEnv) : Except String Unit × List SyncAction :=
  if env.ctxDone then (.error msgCtxCanceled, [])
  else
    match env.pullResult with
    | .ok => (.ok (), [.pull])
    | .alreadyUpToDate => (.ok (), [.pull])
    | r => (.error ("git pull failed: " ++ r.errText), [.pull])

/-- GitOperations.withBranchSwitch: if HEAD is already the target branch,
run the operation directly; otherwise require a clean tree, check out the
target branch (creating it from the remote-tracking ref when it does not
exist locally), run the operation, and via defer always attempt to check
out the originally recorded branch, returning the operation result
unchanged even when that deferred checkout fails. -/
def withBranchSwitch (env : GitEnv) (st : RepoState) (repo : RepoConfig)
    (op : Except String Unit × List SyncAction) : ExecOutcome :=
  if env.ctxDone then ⟨.error msgCtxCanceled, st, []⟩
  else if !st.worktreeOk then ⟨.error ("failed to get worktree"), st, []⟩
  else if !st.headOk then ⟨.error ("failed to get current branch"), st, []⟩
  else
    let currentBranch := st.headBranch
    if currentBranch = repo.targetBranch then ⟨op.1, st, op.2⟩
    else if !st.statusOk then ⟨.error ("failed to get worktree status"), st, []⟩
    else if !st.clean then ⟨.error msgCannotSwitch, st, []⟩
    else if repo.targetBranch ∈ st.localBranches then
      let onTarget : RepoState := { st with headBranch := repo.targetBranch }
      let final : RepoState :=
        if st.switchBackFails then onTarget
        else { onTarget with headBranch := currentBranch }
      ⟨op.1, final, .checkout repo.targetBranch :: op.2 ++ [.checkout currentBranch]⟩
    else if repo.targetBranch ∈ st.remoteBranches then
      let onTarget : RepoState :=
        { st with headBranch := repo.targetBranch,
                  localBranches := repo.targetBranch :: st.localBranches }
      let final : RepoState :=
        if st.switchBackFails then onTarget
        else { onTarget with headBranch := currentBranch }
      ⟨op.1, final, .checkout repo.targetBranch :: op.2 ++ [.checkout currentBranch]⟩
    else
      ⟨.error ("failed to find remote branch " ++ repo.targetBranch), st, []⟩

/-- GitOperations.gitFetch: r.Fetch with the remote; only
git.NoErrAlreadyUpToDate is converted to success. -/
def gitFetch (env : GitEnv) (st : RepoState) : ExecOutcome :=
  if env.ctxDone then ⟨.error msgCtxCanceled, st, []⟩
  else
    match env.fetchResult with
    | .ok => ⟨.ok (), st, [.fetch]⟩
    | .alreadyUpToDate => ⟨.ok (), st, [.fetch]⟩
    | r => ⟨.error ("git fetch failed: " ++ r.errText), st, [.fetch]⟩

/-- GitOperations.gitPull: the specific strategy delegates to
withBranchSwitch, the all strategy performs a fetch instead, and otherwise
w.Pull runs, with both git.NoErrAlreadyUpToDate and
transport.ErrEmptyRemoteRepository converted to success. -/
def gitPull (env : GitEnv) (st : RepoState) (repo : RepoConfig) : ExecOutcome :=
  if env.ctxDone then ⟨.error msgCtxCanceled, st, []⟩
  else if repo.branchStrategy = "specific" then
    withBranchSwitch env st repo (pullSpecificClosure env)
  else if repo.branchStrategy = "all" then gitFetch env st
  else
    match env.pullResult with
    | .ok => ⟨.ok (), st, [.pull]⟩
    | .alreadyUpToDate => ⟨.ok (), st, [.pull]⟩
    | .emptyRemote => ⟨.ok (), st, [.pull]⟩
    | .failed m => ⟨.error ("git pull failed: " ++ m), st, [.pull]⟩

/-- GitOperations.gitPush: the specific strategy delegates to
withBranchSwitch; otherwise ref specs are computed and r.Push runs, with
only git.NoErrAlreadyUpToDate converted to success. -/
def gitPush (env : GitEnv) (st : RepoState) (repo : RepoConfig) : ExecOutcome :=
  if env.ctxDone then ⟨.error msgCtxCanceled, st, []⟩
  else if repo.branchStrategy = "specific" then
    withBranchSwitch env st repo (pushSpecificClosure env)
  else
    match getRefSpecs st repo.branchStrategy repo.remote false with
    | .error e => ⟨.error e, st, []⟩
    | .ok _ =>
      match env.pushResult with
      | .ok => ⟨.ok (), st, [.push]⟩
      | .alreadyUpToDate => ⟨.ok (), st, [.push]⟩
      | r => ⟨.error ("git push failed: " ++ r.errText), st, [.push]⟩

/-- GitOperations.SyncRepository: open the repository and its worktree,
run safety checks when enabled, then dispatch on the direction string;
for direction both the pull runs first and a pull failure aborts before
any push. -/
def SyncRepository (env : GitEnv) (st : RepoState) (repo : RepoConfig) : ExecOutcome :=
  if env.ctxDone then ⟨.error msgCtxCanceled, st, []⟩
  else if !st.openOk then ⟨.error ("failed to open repository"), st, []⟩
  else if !st.worktreeOk then ⟨.error ("failed to get worktree"), st, []⟩
  else
    let safety : Except String Unit :=
      if repo.safetyChecks then performSafetyChecks env st repo else .ok ()
    match safety with
    | .error e => ⟨.error e, st, []⟩
    | .ok _ =>
      if repo.direction = "push" then gitPush env st repo
      else if repo.direction = "pull" then gitPull env st repo
      else if repo.direction = "both" then
        let p := gitPull env st repo
        match p.result with
        | .error e => ⟨.error ("pull failed: " ++ e), p.state, p.actions⟩
        | .ok _ =>
          let q := gitPush env p.state repo
          ⟨q.result, q.state, p.actions ++ q.actions⟩
      else ⟨.error ("invalid direction: " ++ repo.direction), st, []⟩

/-- internal/config GlobalConfig (only the fields the core reads). -/
structure GlobalConfig where
  logLevel : String
  defaultInterval : Int
  maxConcurrentSyncs : Int
  historyMaxEntries : Int
  historyRetentionDays : Int
  historyMaxFileSizeMB : Int
deriving DecidableEq, Repr

/-- internal/config Config. -/
structure Config where
  global : GlobalConfig
  repositories : List RepoConfig
deriving DecidableEq, Repr

/-- The per-repository loop of ConfigWatcher.validateConfig, carrying the
index used in the error messages: path must be non-empty, the interval must
not be negative, and the direction must be push, pull or sync. -/
def validateRepos : List RepoConfig → Nat → Except String Unit
  | [], _ => .ok ()
  | r :: rs, i =>
    if r.path = "" then
      .error ("repository " ++ toString i ++ ": path cannot be empty")
    else if r.interval < 0 then
      .error ("repository " ++ toString i ++ ": interval cannot be negative")
    else if r.direction ≠ "push" && r.direction ≠ "pull" && r.direction ≠ "sync" then
      .error ("repository " ++ toString i ++ ": direction must be push, pull, or sync")
    else validateRepos rs (i + 1)

/-- ConfigWatcher.validateConfig: default_interval and
max_concurrent_syncs must be positive, then each repository entry is
checked by validateRepos. -/
def validateConfig (c : Config) : Except String Unit :=
  if c.global.defaultInterval ≤ 0 then .error ("default_interval must be positive")
  else if c.global.maxConcurrentSyncs ≤ 0 then .error ("max_concurrent_syncs must be positive")
  else validateRepos c.repositories 0

/-- cmd/init.go validateConfigCombination, interval part: the init command
rejects an interval below 30 seconds or above 86400 seconds. -/
def validateConfigCombination (interval : Int) : Except String Unit :=
  if interval < 30 then .error ("interval too low: minimum is 30 seconds to avoid excessive load")
  else if interval > 86400 then .error ("interval too high: maximum is 24 hours (86400 seconds)")
  else .ok ()

/-- cmd/init.go isValidDirection: the direction values the init command
accepts. -/
def isValidDirection (dir : String) : Bool :=
  dir = "push" || dir = "pull" || dir = "both"

/-- ConfigWatcher state relevant to reloads: the currently accepted
configuration. -/
structure WatcherState where
  currentConfig : Config
deriving DecidableEq, Repr

/-- The ConfigWatcher.StartWatching OnConfigChange callback, given the
result of re-unmarshalling the changed file: an unmarshal error or a
validateConfig failure leaves currentConfig unchanged and invokes no
onChange callback; otherwise currentConfig is replaced and onChange is
invoked with the new configuration (returned as some). -/
def onConfigChangeEvent (cw : WatcherState) (parsed : Except String Config) :
    WatcherState × Option Config :=
  match parsed with
  | .error _ => (cw, none)
  | .ok newConfig =>
    match validateConfig newConfig with
    | .error _ => (cw, none)
    | .ok _ => (⟨newConfig⟩, some newConfig)

/-- Daemon state relevant to reloads: the active configuration and the
repository set the running scheduler was built from. -/
structure DaemonState where
  config : Config
  scheduledRepos : List RepoConfig
deriving DecidableEq, Repr

/-- The enabled-repository filter applied when (re)starting the
scheduler. -/
def enabledRepos (c : Config) : List RepoConfig :=
  c.repositories.filter (fun r => r.enabled)

/-- Daemon.reloadConfig: stop the scheduler, adopt the new configuration
wholesale and rebuild the schedule from its enabled repositories; no
validation is performed here. -/
def reloadConfigDaemon (newConfig : Config) : DaemonState :=
  ⟨newConfig, enabledRepos newConfig⟩

/-- Daemon.reloadConfigFromSignal (SIGHUP): reload via config.LoadConfig,
which parses and applies defaults but never calls validateConfig; a load
error leaves the daemon unchanged, any successfully parsed configuration
is applied unconditionally through Daemon.reloadConfig. -/
def reloadConfigFromSignal (d : DaemonState) (loaded : Except String Config) :
    DaemonState :=
  match loaded with
  | .error _ => d
  | .ok newConfig => reloadConfigDaemon newConfig

/-- One per-repository scheduler goroutine: its path and whether it is
currently inside its select loop (counted in the WaitGroup). -/
structure RepoTask where
  path : String
  inLoop : Bool
deriving DecidableEq, Repr

/-- Whether Scheduler.Stop blocks on wg.Wait or returns. -/
inductive StopOutcome where
  | returned
  | blockedForever
deriving DecidableEq, Repr

/-- Whether one goroutine of Scheduler.scheduleRepo exits after its ticker
is stopped: the loop selects only on ticker.C (which never fires once the
ticker is stopped) and ctx.Done, so a goroutine in the loop exits exactly
when the shared context has been cancelled. -/
def repoTaskExits (ctxCancelled : Bool) (t : RepoTask) : Bool :=
  ctxCancelled || !t.inLoop

/-- Scheduler.Stop: stop every timer and ticker, then wg.Wait with no
timeout of any kind; the call completes exactly when every goroutine
exits, and otherwise blocks forever. -/
def schedulerStop (ctxCancelled : Bool) (tasks : List RepoTask) : StopOutcome :=
  if tasks.all (repoTaskExits ctxCancelled) then .returned else .blockedForever

/-- Daemon.shutdown: cancel the shared context, then call
Scheduler.Stop. -/
def daemonShutdownStop (tasks : List RepoTask) : StopOutcome :=
  schedulerStop true tasks

/-- internal/daemon SyncManager: the concurrency limit realised as a
buffered channel of that capacity. -/
structure SyncManager where
  maxConcurrent : Nat
deriving DecidableEq, Repr

/-- Events on the SyncManager semaphore channel: an acquire is the send
performed at the top of SyncManager.SyncRepository, a release is the
deferred receive. -/
inductive SemEvent where
  | acquire
  | release
deriving DecidableEq, Repr

/-- One step of the buffered channel of capacity cap used as the counting
semaphore: a send (acquire) is only possible while fewer than cap permits
are held, a receive (release) only while some permit is held; none means
the caller blocks. -/
def semStep (cap holders : Nat) : SemEvent → Option Nat
  | .acquire => if holders < cap then some (holders + 1) else none
  | .release => if 0 < holders then some (holders - 1) else none

/-- Run a sequence of semaphore events from a given holder count; none
when some event blocks. -/
def semRun (sm : SyncManager) : Nat → List SemEvent → Option Nat
  | h, [] => some h
  | h, e :: es =>
    match semStep sm.maxConcurrent h e with
    | none => none
    | some h2 => semRun sm h2 es

/-- History record (JSON line) written by the history manager; the
timestamp is in days so that time.Time.AddDate(0, 0, -retentionDays)
is subtraction. -/
structure SyncHistoryEntry where
  timestamp : Int
  repoPath : String
  direction : String
  status : String
  durationMs : Int
  errorMsg : String
deriving DecidableEq, Repr

/-- The files CleanOldEntries touches: the history file and the temp file,
each either absent or holding a list of records. -/
structure HistoryFS where
  historyFile : Option (List SyncHistoryEntry)
  tempFile : Option (List SyncHistoryEntry)
deriving DecidableEq, Repr

/-- How far rewriteHistoryFile gets: to completion, or a crash after the
temp file is fully written but before the rename. -/
inductive RewriteOutcome where
  | completed
  | crashedBeforeRename
deriving DecidableEq, Repr

/-- HistoryManager.rewriteHistoryFile: write all entries to
historyFile.tmp, then os.Rename the temp file over the history file; a
crash before the rename leaves the history file untouched with the temp
file beside it. -/
def rewriteHistoryFile (fs : HistoryFS) (entries : List SyncHistoryEntry) :
    RewriteOutcome → HistoryFS
  | .completed => ⟨some entries, none⟩
  | .crashedBeforeRename => { fs with tempFile := some entries }

/-- The cutoff computed by CleanOldEntries:
time.Now().AddDate(0, 0, -retentionDays) with day-granularity
timestamps. -/
def cutoffTime (now retentionDays : Int) : Int := now - retentionDays

/-- The per-entry retention test of CleanOldEntries:
entry.Timestamp.After(cutoff). -/
def keepEntry (cutoff : Int) (e : SyncHistoryEntry) : Bool :=
  cutoff < e.timestamp

/-- HistoryManager.CleanOldEntries: read all records (a missing file reads
as empty), keep those whose timestamp is after the cutoff, and when
anything was removed rewrite the file through rewriteHistoryFile;
when nothing was removed the file system is untouched. -/
def CleanOldEntries (fs : HistoryFS) (now retentionDays : Int)
    (crash : RewriteOutcome) : HistoryFS :=
  let cutoff := cutoffTime now retentionDays
  let entries := fs.historyFile.getD []
  let validEntries := entries.filter (keepEntry cutoff)
  let removedCount := entries.length - validEntries.length
  if removedCount = 0 then fs
  else rewriteHistoryFile fs validEntries crash

/-! Concrete fixtures used by counterexamples and witnesses. -/

/-- A sync environment in which the context is live and every underlying
go-git call succeeds. -/
def quietEnv : GitEnv := ⟨false, .ok, .ok, .ok⟩

/-- A healthy repository on branch main with a clean tree; develop exists
locally and on the remote. -/
def cleanMainState : RepoState :=
  ⟨true, true, true, true, "main", true, ["main", "develop"], ["develop"], false⟩

/-- The same repository with uncommitted changes. -/
def dirtyMainState : RepoState := { cleanMainState with clean := false }

/-- A typical repository entry: push, 300 second interval, current branch
strategy, safety checks on, no force push. -/
def baseRepo : RepoConfig :=
  ⟨"/home/user/project", true, "push", 300, "origin", "current", "", true, false⟩

/-- The entry of the C1 counterexample: direction pull with force-push
set. -/
def forcedPullRepo : RepoConfig :=
  { baseRepo with direction := "pull", forcePush := true }

/-- An entry whose interval is below the 30 second minimum the spec
claims is validated on reload. -/
def lowIntervalRepo : RepoConfig := { baseRepo with interval := 5 }

/-- A valid global section. -/
def goodGlobal : GlobalConfig := ⟨"info", 300, 5, 1000, 30, 10⟩

/-- A configuration holding the low-interval entry. -/
def lowIntervalConfig : Config := ⟨goodGlobal, [lowIntervalRepo]⟩

/-- An entry with direction both (the value the init command and the sync
dispatch use for bidirectional sync). -/
def bothRepo : RepoConfig := { baseRepo with direction := "both" }

/-- An entry with direction sync (the value only
ConfigWatcher.validateConfig accepts). -/
def syncDirRepo : RepoConfig := { baseRepo with direction := "sync" }

/-- Configuration holding the direction-both entry. -/
def bothConfig : Config := ⟨goodGlobal, [bothRepo]⟩

/-- Configuration holding the direction-sync entry. -/
def syncDirConfig : Config := ⟨goodGlobal, [syncDirRepo]⟩

/-- C1.  The spec claims that with safety checks enabled a dirty tree
aborts the whole attempt unless force-push is set AND the direction
includes push, so that a pull is never forced through a dirty tree.  In
the code performSafetyChecks tests only ForcePush and ignores the
direction: with direction pull, a dirty tree, safety checks enabled and
force-push set, the attempt is not aborted and the pull runs.  This
counterexample evaluates SyncRepository at exactly that input. -/
theorem C1_counterexample :
    (SyncRepository quietEnv dirtyMainState forcedPullRepo).result = .ok ()
    ∧ (SyncRepository quietEnv dirtyMainState forcedPullRepo).actions = [.pull]
    ∧ forcedPullRepo.direction = "pull"
    ∧ forcedPullRepo.safetyChecks = true
    ∧ forcedPullRepo.forcePush = true
    ∧ dirtyMainState.clean = false := by
  decide

/-- C1 (amended).  With safety checks enabled and a dirty working tree,
the attempt is aborted with the uncommitted-changes error exactly when
force-push is unset; when force-push is set the safety check passes for
every direction, pull included. -/
theorem C1_amended (env : GitEnv) (st : RepoState) (repo : RepoConfig)
    (henv : env.ctxDone = false) (hopen : st.openOk = true)
    (hwt : st.worktreeOk = true) (hstat : st.statusOk = true)
    (hsc : repo.safetyChecks = true) (hdirty : st.clean = false) :
    (repo.forcePush = false →
      SyncRepository env st repo = ⟨.error msgUncommittedSkip, st, []⟩)
    ∧ (repo.forcePush = true → performSafetyChecks env st repo = .ok ()) := by
  constructor
  · intro hfp
    simp [SyncRepository, performSafetyChecks, henv, hopen, hwt, hstat, hsc, hdirty, hfp]
  · intro hfp
    simp [performSafetyChecks, henv, hstat, hdirty, hfp]

/-- C1 witness: the amended theorem evaluated at the concrete fixtures,
for both values of force-push. -/
theorem C1_amended_witness :
    (SyncRepository quietEnv dirtyMainState baseRepo
        = ⟨.error msgUncommittedSkip, dirtyMainState, []⟩)
    ∧ performSafetyChecks quietEnv dirtyMainState forcedPullRepo = .ok () := by
  refine ⟨?_, ?_⟩
  · exact (C1_amended quietEnv dirtyMainState baseRepo rfl rfl rfl rfl rfl rfl).1 rfl
  · exact (C1_amended quietEnv dirtyMainState forcedPullRepo rfl rfl rfl rfl rfl rfl).2 rfl

/-- Helper for C2: validateRepos accepts a repository list exactly when
every entry has a non-empty path, a non-negative interval and one of the
directions push, pull, sync; the index argument is irrelevant to
acceptance. -/
theorem validateRepos_ok_iff (rs : List RepoConfig) (i : Nat) :
    validateRepos rs i = .ok () ↔
      ∀ r ∈ rs, r.path ≠ "" ∧ 0 ≤ r.interval ∧
        (r.direction = "push" ∨ r.direction = "pull" ∨ r.direction = "sync") := by
  induction rs generalizing i with
  | nil => simp [validateRepos]
  | cons r rs ih =>
    by_cases hp : r.path = ""
    · simp [validateRepos, hp]
    · by_cases hi : r.interval < 0
      · simp only [validateRepos, hp, if_neg hp, hi, if_pos hi]
        simp only [List.mem_cons]
        constructor
        · intro h; cases h
        · intro h
          have := (h r (Or.inl rfl)).2.1
          omega
      · by_cases hd : r.direction ≠ "push" ∧ r.direction ≠ "pull" ∧ r.direction ≠ "sync"
        · have hb : (r.direction ≠ "push" && r.direction ≠ "pull" && r.direction ≠ "sync") = true := by
            simp [hd.1, hd.2.1, hd.2.2]
          simp only [validateRepos, if_neg hp, if_neg hi, hb, if_pos rfl]
          simp only [List.mem_cons]
          constructor
          · intro h; cases h
          · intro h
            rcases (h r (Or.inl rfl)).2.2 with h1 | h1 | h1 <;>
              first
                | exact absurd h1 hd.1
                | exact absurd h1 hd.2.1
                | exact absurd h1 hd.2.2
        · have hdir : r.direction = "push" ∨ r.direction = "pull" ∨ r.direction = "sync" := by
            by_contra hc
            push_neg at hc
            exact hd ⟨hc.1, hc.2.1, hc.2.2⟩
          have hb : (r.direction ≠ "push" && r.direction ≠ "pull" && r.direction ≠ "sync") = false := by
            rcases hdir with h1 | h1 | h1 <;> simp [h1]
          simp only [validateRepos, if_neg hp, if_neg hi, hb, Bool.false_eq_true, if_neg,
            ite_false]
          rw [ih (i + 1)]
          simp only [List.mem_cons]
          constructor
          · intro h s hs
            rcases hs with hs | hs
            · subst hs
              exact ⟨hp, by omega, hdir⟩
            · exact h s hs
          · intro h s hs
            exact h s (Or.inr hs)

/-- C2.  The spec claims that a repository entry whose interval lies
outside [30, 86400] seconds is rejected by the validation applied on
reload.  ConfigWatcher.validateConfig only rejects negative intervals:
the entry with interval 5 is accepted. -/
theorem C2_counterexample :
    validateConfig lowIntervalConfig = .ok ()
    ∧ lowIntervalRepo.interval < 30 := by
  decide

/-- C2 (amended).  The validation applied on reload accepts a
configuration exactly when the global interval and concurrency are
positive and every repository entry has a non-empty path, a NON-NEGATIVE
interval (any value at least 0 passes, including values outside
[30, 86400]) and a direction among push, pull, sync; the [30, 86400]
interval bound is enforced only by the init command
(validateConfigCombination), not on reload. -/
theorem C2_amended (c : Config) :
    (validateConfig c = .ok () ↔
      0 < c.global.defaultInterval ∧ 0 < c.global.maxConcurrentSyncs ∧
        ∀ r ∈ c.repositories, r.path ≠ "" ∧ 0 ≤ r.interval ∧
          (r.direction = "push" ∨ r.direction = "pull" ∨ r.direction = "sync"))
    ∧ (∀ interval : Int, interval < 30 ∨ 86400 < interval →
        validateConfigCombination interval ≠ .ok ()) := by
  constructor
  · unfold validateConfig
    by_cases h1 : c.global.defaultInterval ≤ 0
    · simp only [h1, if_pos]
      constructor
      · intro h; cases h
      · intro h; omega
    · by_cases h2 : c.global.maxConcurrentSyncs ≤ 0
      · simp only [h1, if_neg h1, h2, if_pos h2]
        constructor
        · intro h; cases h
        · intro h; omega
      · simp only [if_neg h1, if_neg h2]
        rw [validateRepos_ok_iff]
        constructor
        · intro h
          exact ⟨by omega, by omega, h⟩
        · intro h
          exact h.2.2
  · intro interval hiv
    unfold validateConfigCombination
    rcases hiv with hiv | hiv
    · simp only [hiv, if_pos]
      intro h; cases h
    · have : ¬interval < 30 := by omega
      simp only [if_neg this, hiv, if_pos]
      intro h; cases h

/-- C2 witness: the amended claim evaluated at the concrete low-interval
configuration, which the reload validation accepts, and at the concrete
interval 5, which the init command rejects. -/
theorem C2_amended_witness :
    (validateConfig lowIntervalConfig = .ok () ↔
      0 < lowIntervalConfig.global.defaultInterval
        ∧ 0 < lowIntervalConfig.global.maxConcurrentSyncs
        ∧ ∀ r ∈ lowIntervalConfig.repositories, r.path ≠ "" ∧ 0 ≤ r.interval ∧
            (r.direction = "push" ∨ r.direction = "pull" ∨ r.direction = "sync"))
    ∧ validateConfigCombination 5 ≠ .ok () := by
  exact ⟨(C2_amended lowIntervalConfig).1,
    (C2_amended lowIntervalConfig).2 5 (Or.inl (by decide))⟩

/-- C3.  The claim states that reload validation accepts a direction
exactly on the closed set push, pull, both on which the sync dispatch
succeeds.  In the code ConfigWatcher.validateConfig accepts push, pull,
sync instead: direction both (used by the init command, the README and
the dispatch) is rejected on reload, while direction sync passes
validation and then fails at dispatch time.  The init command documents
the intended set via isValidDirection. -/
theorem C3_code_bug_evidence :
    validateConfig bothConfig
        = .error ("repository 0: direction must be push, pull, or sync")
    ∧ validateConfig syncDirConfig = .ok ()
    ∧ (SyncRepository quietEnv cleanMainState syncDirRepo).result
        = .error ("invalid direction: sync")
    ∧ (SyncRepository quietEnv cleanMainState bothRepo).result = .ok ()
    ∧ isValidDirection "both" = true
    ∧ isValidDirection "sync" = false := by
  decide

/-- A specific-strategy entry targeting develop while the repository sits
on main. -/
def specificRepo : RepoConfig :=
  { baseRepo with branchStrategy := "specific", targetBranch := "develop" }

/-- Helper: on a dirty tree, withBranchSwitch aborts before any checkout
with the cannot-switch error and leaves the state untouched. -/
theorem withBranchSwitch_dirty (env : GitEnv) (st : RepoState) (repo : RepoConfig)
    (op : Except String Unit × List SyncAction)
    (henv : env.ctxDone = false) (hwt : st.worktreeOk = true)
    (hhd : st.headOk = true) (hne : st.headBranch ≠ repo.targetBranch)
    (hstat : st.statusOk = true) (hdirty : st.clean = false) :
    withBranchSwitch env st repo op = ⟨.error msgCannotSwitch, st, []⟩ := by
  simp [withBranchSwitch, henv, hwt, hhd, hne, hstat, hdirty]

/-- C4.  Under the specific strategy, when the repository starts on a
branch other than the target and the checkout of the target succeeds
(the target exists locally or as a remote-tracking ref), the switch back
to the recorded original branch is attempted on every exit path: the
final checkout of the original branch is always in the action list, the
returned result is exactly the result of the push or pull operation
regardless of whether the switch back succeeds, and the final branch is
the original one exactly when the switch back does not fail. -/
theorem C4_branch_restore (env : GitEnv) (st : RepoState) (repo : RepoConfig)
    (opRes : Except String Unit) (opActs : List SyncAction)
    (henv : env.ctxDone = false) (hwt : st.worktreeOk = true)
    (hhd : st.headOk = true) (hne : st.headBranch ≠ repo.targetBranch)
    (hstat : st.statusOk = true) (hcl : st.clean = true)
    (hco : repo.targetBranch ∈ st.localBranches ∨ repo.targetBranch ∈ st.remoteBranches) :
    (withBranchSwitch env st repo (opRes, opActs)).result = opRes
    ∧ (withBranchSwitch env st repo (opRes, opActs)).actions
        = .checkout repo.targetBranch :: opActs ++ [.checkout st.headBranch]
    ∧ (st.switchBackFails = false →
        (withBranchSwitch env st repo (opRes, opActs)).state.headBranch = st.headBranch)
    ∧ (st.switchBackFails = true →
        (withBranchSwitch env st repo (opRes, opActs)).state.headBranch = repo.targetBranch) := by
  by_cases hl : repo.targetBranch ∈ st.localBranches
  · cases hsb : st.switchBackFails <;>
      simp [withBranchSwitch, henv, hwt, hhd, hne, hstat, hcl, hl, hsb]
  · have hr : repo.targetBranch ∈ st.remoteBranches := hco.resolve_left hl
    cases hsb : st.switchBackFails <;>
      simp [withBranchSwitch, henv, hwt, hhd, hne, hstat, hcl, hl, hr, hsb]

/-- C4 witness: the theorem applied to the concrete clean repository on
main with target develop and a successful push operation. -/
theorem C4_branch_restore_witness :
    (withBranchSwitch quietEnv cleanMainState specificRepo (.ok (), [.push])).result = .ok ()
    ∧ (withBranchSwitch quietEnv cleanMainState specificRepo (.ok (), [.push])).actions
        = .checkout specificRepo.targetBranch :: [.push]
            ++ [.checkout cleanMainState.headBranch]
    ∧ (cleanMainState.switchBackFails = false →
        (withBranchSwitch quietEnv cleanMainState specificRepo
            (.ok (), [.push])).state.headBranch = cleanMainState.headBranch)
    ∧ (cleanMainState.switchBackFails = true →
        (withBranchSwitch quietEnv cleanMainState specificRepo
            (.ok (), [.push])).state.headBranch = specificRepo.targetBranch) :=
  C4_branch_restore quietEnv cleanMainState specificRepo (.ok ()) [.push]
    rfl rfl rfl (by decide) rfl rfl (Or.inl (by decide))

/-- Helper: the skip message of performSafetyChecks names uncommitted
changes. -/
theorem mentionsUncommitted_skip : mentionsUncommitted msgUncommittedSkip = true := by
  decide

/-- Helper: the cannot-switch message of withBranchSwitch names
uncommitted changes. -/
theorem mentionsUncommitted_cannotSwitch : mentionsUncommitted msgCannotSwitch = true := by
  decide

/-- Helper: the wrapped pull failure under direction both still names
uncommitted changes. -/
theorem mentionsUncommitted_pullWrap :
    mentionsUncommitted ("pull failed: " ++ msgCannotSwitch) = true := by
  decide

/-- C5.  Under the specific strategy, whenever the repository sits on a
branch other than the target and the working tree is dirty, the attempt
(for each dispatchable direction push, pull, both) fails with a message
indicating uncommitted changes, performs no checkout, push, pull or fetch,
and leaves the repository state (in particular its branch) unchanged. -/
theorem C5_dirty_specific (env : GitEnv) (st : RepoState) (repo : RepoConfig)
    (henv : env.ctxDone = false) (hopen : st.openOk = true)
    (hwt : st.worktreeOk = true) (hstat : st.statusOk = true)
    (hhd : st.headOk = true) (hstrat : repo.branchStrategy = "specific")
    (hne : st.headBranch ≠ repo.targetBranch) (hdirty : st.clean = false)
    (hdir : repo.direction = "push" ∨ repo.direction = "pull" ∨ repo.direction = "both") :
    (∃ m, (SyncRepository env st repo).result = .error m ∧ mentionsUncommitted m = true)
    ∧ (SyncRepository env st repo).actions = []
    ∧ (SyncRepository env st repo).state = st := by
  have hwbs : ∀ op, withBranchSwitch env st repo op = ⟨.error msgCannotSwitch, st, []⟩ :=
    fun op => withBranchSwitch_dirty env st repo op henv hwt hhd hne hstat hdirty
  by_cases hsc : repo.safetyChecks = true
  · by_cases hfp : repo.forcePush = true
    · -- safety check passes via force-push; the branch switch aborts
      rcases hdir with hd | hd | hd <;>
        simp [SyncRepository, performSafetyChecks, gitPush, gitPull, hwbs,
          henv, hopen, hwt, hstat, hsc, hfp, hdirty, hstrat, hd,
          mentionsUncommitted_cannotSwitch, mentionsUncommitted_pullWrap]
    · -- safety check aborts with the uncommitted-changes skip message
      have hfp2 : repo.forcePush = false := by
        cases h : repo.forcePush
        · rfl
        · exact absurd h hfp
      simp [SyncRepository, performSafetyChecks,
        henv, hopen, hwt, hstat, hsc, hfp2, hdirty, mentionsUncommitted_skip]
  · have hsc2 : repo.safetyChecks = false := by
      cases h : repo.safetyChecks
      · rfl
      · exact absurd h hsc
    rcases hdir with hd | hd | hd <;>
      simp [SyncRepository, gitPush, gitPull, hwbs,
        henv, hopen, hwt, hsc2, hstrat, hd,
        mentionsUncommitted_cannotSwitch, mentionsUncommitted_pullWrap]

/-- C5 witness: the concrete dirty repository on main with target develop
and direction push. -/
theorem C5_dirty_specific_witness :
    (∃ m, (SyncRepository quietEnv dirtyMainState specificRepo).result = .error m
        ∧ mentionsUncommitted m = true)
    ∧ (SyncRepository quietEnv dirtyMainState specificRepo).actions = []
    ∧ (SyncRepository quietEnv dirtyMainState specificRepo).state = dirtyMainState :=
  C5_dirty_specific quietEnv dirtyMainState specificRepo
    rfl rfl rfl rfl rfl rfl (by decide) rfl (Or.inl rfl)

/-- Environment in which the underlying fetch reports an empty remote
repository. -/
def fetchEmptyEnv : GitEnv := ⟨false, .ok, .ok, .emptyRemote⟩

/-- A pull entry with the all strategy, whose pull sub-protocol is a
fetch. -/
def allPullRepo : RepoConfig :=
  { baseRepo with direction := "pull", branchStrategy := "all" }

/-- C6.  The spec claims that for every direction and branch strategy an
underlying push, pull or fetch reporting already-up-to-date or
empty-remote-repository completes the attempt as a success.  In the code
gitFetch converts only git.NoErrAlreadyUpToDate to success, so a pull
attempt under the all strategy whose fetch reports an empty remote fails
the whole attempt. -/
theorem C6_counterexample :
    (SyncRepository fetchEmptyEnv cleanMainState allPullRepo).result
      = .error ("git fetch failed: " ++ msgEmptyRemote) := by
  decide

/-- C6 (amended).  Already-up-to-date completes push, pull and fetch as
success under every strategy that reaches the underlying call, but the
empty-remote-repository result is converted to success only in the plain
(non-specific, non-all) pull path: push, fetch, and the specific-strategy
pull all report it as a failure. -/
theorem C6_amended :
    (∀ (env : GitEnv) (st : RepoState) (repo : RepoConfig),
      env.ctxDone = false →
      (repo.branchStrategy = "current" ∨ repo.branchStrategy = "main"
        ∨ repo.branchStrategy = "all") →
      (repo.branchStrategy = "current" → st.headOk = true) →
      env.pushResult = .alreadyUpToDate → (gitPush env st repo).result = .ok ())
    ∧ (∀ (env : GitEnv) (st : RepoState) (repo : RepoConfig),
      env.ctxDone = false → repo.branchStrategy = "specific" →
      st.worktreeOk = true → st.headOk = true → st.headBranch = repo.targetBranch →
      env.pushResult = .alreadyUpToDate → (gitPush env st repo).result = .ok ())
    ∧ (∀ (env : GitEnv) (st : RepoState) (repo : RepoConfig),
      env.ctxDone = false → repo.branchStrategy ≠ "specific" →
      repo.branchStrategy ≠ "all" →
      (env.pullResult = .alreadyUpToDate ∨ env.pullResult = .emptyRemote) →
      (gitPull env st repo).result = .ok ())
    ∧ (∀ (env : GitEnv) (st : RepoState),
      env.ctxDone = false → env.fetchResult = .alreadyUpToDate →
      (gitFetch env st).result = .ok ())
    ∧ (∀ (env : GitEnv) (st : RepoState),
      env.ctxDone = false → env.fetchResult = .emptyRemote →
      (gitFetch env st).result = .error ("git fetch failed: " ++ msgEmptyRemote))
    ∧ (∀ (env : GitEnv) (st : RepoState) (repo : RepoConfig),
      env.ctxDone = false →
      (repo.branchStrategy = "current" ∨ repo.branchStrategy = "main"
        ∨ repo.branchStrategy = "all") →
      (repo.branchStrategy = "current" → st.headOk = true) →
      env.pushResult = .emptyRemote →
      (gitPush env st repo).result = .error ("git push failed: " ++ msgEmptyRemote))
    ∧ (∀ (env : GitEnv) (st : RepoState) (repo : RepoConfig),
      env.ctxDone = false → repo.branchStrategy = "specific" →
      st.worktreeOk = true → st.headOk = true → st.headBranch = repo.targetBranch →
      env.pullResult = .emptyRemote →
      (gitPull env st repo).result = .error ("git pull failed: " ++ msgEmptyRemote)) := by
  refine ⟨?_, ?_, ?_, ?_, ?_, ?_, ?_⟩
  · intro env st repo henv hstrat hcur hres
    rcases hstrat with h | h | h
    · simp [gitPush, getRefSpecs, henv, h, hres, hcur h, OpResult.errText]
    · simp [gitPush, getRefSpecs, henv, h, hres, OpResult.errText]
    · simp [gitPush, getRefSpecs, henv, h, hres, OpResult.errText]
  · intro env st repo henv hstrat hwt hhd hsame hres
    simp [gitPush, withBranchSwitch, pushSpecificClosure, henv, hstrat, hwt, hhd,
      hsame, hres]
  · intro env st repo henv hns hna hres
    rcases hres with h | h <;> simp [gitPull, henv, hns, hna, h]
  · intro env st henv hres
    simp [gitFetch, henv, hres]
  · intro env st henv hres
    simp [gitFetch, henv, hres, OpResult.errText]
  · intro env st repo henv hstrat hcur hres
    rcases hstrat with h | h | h
    · simp [gitPush, getRefSpecs, henv, h, hres, hcur h, OpResult.errText]
    · simp [gitPush, getRefSpecs, henv, h, hres, OpResult.errText]
    · simp [gitPush, getRefSpecs, henv, h, hres, OpResult.errText]
  · intro env st repo henv hstrat hwt hhd hsame hres
    simp [gitPull, withBranchSwitch, pullSpecificClosure, henv, hstrat, hwt, hhd,
      hsame, hres, OpResult.errText]

/-- C6 witness: the amended claim evaluated at concrete inputs covering
each conjunct. -/
theorem C6_amended_witness :
    (gitPush ⟨false, .alreadyUpToDate, .ok, .ok⟩ cleanMainState baseRepo).result = .ok ()
    ∧ (gitPush ⟨false, .alreadyUpToDate, .ok, .ok⟩ { cleanMainState with headBranch := "develop" }
        specificRepo).result = .ok ()
    ∧ (gitPull ⟨false, .ok, .emptyRemote, .ok⟩ cleanMainState
        { baseRepo with direction := "pull" }).result = .ok ()
    ∧ (gitFetch ⟨false, .ok, .ok, .alreadyUpToDate⟩ cleanMainState).result = .ok ()
    ∧ (gitFetch fetchEmptyEnv cleanMainState).result
        = .error ("git fetch failed: " ++ msgEmptyRemote)
    ∧ (gitPush ⟨false, .emptyRemote, .ok, .ok⟩ cleanMainState baseRepo).result
        = .error ("git push failed: " ++ msgEmptyRemote)
    ∧ (gitPull ⟨false, .ok, .emptyRemote, .ok⟩ { cleanMainState with headBranch := "develop" }
        specificRepo).result = .error ("git pull failed: " ++ msgEmptyRemote) := by
  refine ⟨?_, ?_, ?_, ?_, ?_, ?_, ?_⟩
  · exact C6_amended.1 _ _ _ rfl (Or.inl rfl) (fun _ => rfl) rfl
  · exact C6_amended.2.1 _ _ _ rfl rfl rfl rfl rfl rfl
  · exact C6_amended.2.2.1 _ _ _ rfl (by decide) (by decide) (Or.inr rfl)
  · exact C6_amended.2.2.2.1 _ _ rfl rfl
  · exact C6_amended.2.2.2.2.1 _ _ rfl rfl
  · exact C6_amended.2.2.2.2.2.1 _ _ _ rfl (Or.inl rfl) (fun _ => rfl) rfl
  · exact C6_amended.2.2.2.2.2.2 _ _ _ rfl rfl rfl rfl rfl rfl

/-- C7.  The spec claims Scheduler.Stop waits at most a 5 second grace
period for the per-repository tasks and then returns with a logged
timeout rather than blocking forever.  The code stops every ticker and
then calls wg.Wait with no timeout of any kind, so with one task still in
its loop and the shared context not cancelled, Stop blocks forever. -/
theorem C7_counterexample :
    schedulerStop false [⟨"/home/user/project", true⟩] = .blockedForever := by
  decide

/-- C7 (amended).  Scheduler.Stop stops every ticker and timer and then
waits without any bound: it returns exactly when every per-repository
goroutine exits, which a goroutine inside its loop does only once the
shared context is cancelled.  Hence the Daemon shutdown path, which
cancels the context before calling Stop, always returns, while a Stop
with the context still live and any task in its loop blocks forever;
there is no 5 second grace period anywhere in Stop. -/
theorem C7_amended :
    (∀ tasks : List RepoTask, daemonShutdownStop tasks = .returned)
    ∧ (∀ (tasks : List RepoTask) (t : RepoTask), t ∈ tasks → t.inLoop = true →
        schedulerStop false tasks = .blockedForever) := by
  constructor
  · intro tasks
    simp [daemonShutdownStop, schedulerStop, repoTaskExits]
  · intro tasks t hmem hloop
    have hall : tasks.all (repoTaskExits false) = false := by
      rw [List.all_eq_false]
      exact ⟨t, hmem, by simp [repoTaskExits, hloop]⟩
    simp [schedulerStop, hall]

/-- C7 witness: the amended claim at a single concrete running task:
shutdown (context cancelled first) returns, a plain Stop blocks. -/
theorem C7_amended_witness :
    daemonShutdownStop [⟨"/home/user/project", true⟩] = .returned
    ∧ schedulerStop false [⟨"/home/user/project", true⟩] = .blockedForever :=
  ⟨C7_amended.1 [⟨"/home/user/project", true⟩],
    C7_amended.2 [⟨"/home/user/project", true⟩] ⟨"/home/user/project", true⟩
      (by decide) rfl⟩

/-- A configuration the reload validation accepts. -/
def goodConfig : Config := ⟨goodGlobal, [baseRepo]⟩

/-- An entry with the invalid direction bogus. -/
def bogusRepo : RepoConfig := { baseRepo with direction := "bogus" }

/-- A configuration holding the bogus entry; it parses (LoadConfig
succeeds) but fails validateConfig. -/
def bogusConfig : Config := ⟨goodGlobal, [bogusRepo]⟩

/-- The daemon running the good configuration. -/
def activeDaemon : DaemonState := ⟨goodConfig, enabledRepos goodConfig⟩

/-- C8.  The spec claims an invalid reload (direction bogus) is rejected
in full on both the file-watcher path and the SIGHUP path.  The SIGHUP
path (Daemon.reloadConfigFromSignal) only calls config.LoadConfig, which
parses without ever invoking validateConfig, and then applies the result
unconditionally: the invalid configuration replaces the active one and
the scheduled repository set changes. -/
theorem C8_counterexample :
    validateConfig bogusConfig
        = .error ("repository 0: direction must be push, pull, or sync")
    ∧ reloadConfigFromSignal activeDaemon (.ok bogusConfig)
        = ⟨bogusConfig, [bogusRepo]⟩
    ∧ (reloadConfigFromSignal activeDaemon (.ok bogusConfig)).scheduledRepos
        ≠ activeDaemon.scheduledRepos := by
  decide

/-- C8 (amended).  An invalid reload is rejected in full on the
file-watcher path only: there an unmarshal failure or a validation
failure leaves the current configuration in place and invokes no reload
callback.  The SIGHUP path applies any configuration that parses,
without validation, replacing the active configuration and schedule
wholesale. -/
theorem C8_amended :
    (∀ (cw : WatcherState) (e : String), onConfigChangeEvent cw (.error e) = (cw, none))
    ∧ (∀ (cw : WatcherState) (cfg : Config) (e : String),
        validateConfig cfg = .error e → onConfigChangeEvent cw (.ok cfg) = (cw, none))
    ∧ (∀ (d : DaemonState) (cfg : Config),
        reloadConfigFromSignal d (.ok cfg) = ⟨cfg, enabledRepos cfg⟩) := by
  refine ⟨fun cw e => rfl, ?_, fun d cfg => rfl⟩
  intro cw cfg e hval
  simp [onConfigChangeEvent, hval]

/-- C8 witness: the amended claim at the concrete bogus configuration:
the watcher path leaves the current configuration untouched. -/
theorem C8_amended_witness :
    onConfigChangeEvent ⟨goodConfig⟩ (.ok bogusConfig) = (⟨goodConfig⟩, none) :=
  C8_amended.2.1 ⟨goodConfig⟩ bogusConfig
    ("repository 0: direction must be push, pull, or sync") (by decide)

/-- C9.  CleanOldEntries keeps exactly the records whose timestamp is
after the cutoff now - retention_days (so it removes exactly the records
at least retention_days old), and it is atomic: a crash after the temp
file is written but before the rename leaves the original history file
holding its previous records. -/
theorem C9_clean_retention (fs : HistoryFS) (now ret : Int)
    (entries : List SyncHistoryEntry) (h : fs.historyFile = some entries) :
    (CleanOldEntries fs now ret .completed).historyFile
        = some (entries.filter (keepEntry (cutoffTime now ret)))
    ∧ (∀ e, e ∈ entries.filter (keepEntry (cutoffTime now ret))
        ↔ e ∈ entries ∧ now - ret < e.timestamp)
    ∧ (CleanOldEntries fs now ret .crashedBeforeRename).historyFile = some entries := by
  have hmem : ∀ e, e ∈ entries.filter (keepEntry (cutoffTime now ret))
      ↔ e ∈ entries ∧ now - ret < e.timestamp := by
    intro e
    simp [List.mem_filter, keepEntry, cutoffTime]
  have hgd : fs.historyFile.getD [] = entries := by rw [h]; rfl
  refine ⟨?_, hmem, ?_⟩
  · unfold CleanOldEntries
    rw [hgd]
    by_cases hrc :
        entries.length - (entries.filter (keepEntry (cutoffTime now ret))).length = 0
    · rw [if_pos hrc, h]
      have hle := List.length_filter_le (keepEntry (cutoffTime now ret)) entries
      have hlen : (entries.filter (keepEntry (cutoffTime now ret))).length
          = entries.length := by omega
      rw [List.filter_eq_self.mpr (List.filter_length_eq_length.mp hlen)]
    · rw [if_neg hrc]
      rfl
  · unfold CleanOldEntries
    rw [hgd]
    by_cases hrc :
        entries.length - (entries.filter (keepEntry (cutoffTime now ret))).length = 0
    · rw [if_pos hrc]
      exact h
    · rw [if_neg hrc]
      simpa [rewriteHistoryFile] using h

/-- C9 witness: a concrete file with one record inside and one outside
the 30 day retention window, cleaned at day 100. -/
theorem C9_clean_retention_witness :
    (CleanOldEntries ⟨some [⟨50, "/home/user/project", "push", "success", 120, ""⟩,
        ⟨90, "/home/user/project", "push", "failed", 7, "network timeout"⟩], none⟩
        100 30 .completed).historyFile
      = some ([⟨50, "/home/user/project", "push", "success", 120, ""⟩,
          ⟨90, "/home/user/project", "push", "failed", 7, "network timeout"⟩].filter
            (keepEntry (cutoffTime 100 30)))
    ∧ (CleanOldEntries ⟨some [⟨50, "/home/user/project", "push", "success", 120, ""⟩,
        ⟨90, "/home/user/project", "push", "failed", 7, "network timeout"⟩], none⟩
        100 30 .crashedBeforeRename).historyFile
      = some [⟨50, "/home/user/project", "push", "success", 120, ""⟩,
          ⟨90, "/home/user/project", "push", "failed", 7, "network timeout"⟩] :=
  ⟨(C9_clean_retention _ 100 30 _ rfl).1, (C9_clean_retention _ 100 30 _ rfl).2.2⟩

/-- Helper for C10: from any holder count within the capacity, any
runnable event sequence on the SyncManager semaphore channel ends within
the capacity. -/
theorem semRun_le (sm : SyncManager) : ∀ (events : List SemEvent) (h0 h : Nat),
    h0 ≤ sm.maxConcurrent → semRun sm h0 events = some h → h ≤ sm.maxConcurrent := by
  intro events
  induction events with
  | nil =>
    intro h0 h hle hrun
    simp only [semRun, Option.some.injEq] at hrun
    omega
  | cons e es ih =>
    intro h0 h hle hrun
    cases e with
    | acquire =>
      simp only [semRun, semStep] at hrun
      by_cases hc : h0 < sm.maxConcurrent
      · rw [if_pos hc] at hrun
        exact ih (h0 + 1) h (by omega) hrun
      · rw [if_neg hc] at hrun
        cases hrun
    | release =>
      simp only [semRun, semStep] at hrun
      by_cases hc : 0 < h0
      · rw [if_pos hc] at hrun
        exact ih (h0 - 1) h (by omega) hrun
      · rw [if_neg hc] at hrun
        cases hrun

/-- C10.  Every execution of SyncManager.SyncRepository holds one permit
of the buffered channel for its whole duration and the acquire blocks
while the channel is full, so along any runnable sequence of acquire and
release events starting from zero holders, the holder count never
exceeds maxConcurrent; since any instant of any execution is the end of
such a sequence, at no instant do more than maxConcurrent syncs run. -/
theorem C10_concurrency_bound (sm : SyncManager) (events : List SemEvent) (h : Nat)
    (hrun : semRun sm 0 events = some h) : h ≤ sm.maxConcurrent :=
  semRun_le sm events 0 h (Nat.zero_le _) hrun

/-- C10 witness: capacity 2, with a third acquire arriving after a
release; the holder count ends at 2, within the capacity. -/
theorem C10_concurrency_bound_witness :
    semRun ⟨2⟩ 0 [.acquire, .acquire, .release, .acquire] = some 2
    ∧ 2 ≤ SyncManager.maxConcurrent ⟨2⟩ :=
  ⟨by decide, C10_concurrency_bound ⟨2⟩ [.acquire, .acquire, .release, .acquire] 2 (by decide)⟩
